import Mathlib

/-!
# Leeward: a shallow embedding for specification checking

Leeward is a Linux sandbox daemon hosting a pool of pre-forked worker
processes that execute untrusted code.  This file embeds, in Lean, the parts
of the Rust sources that the audited claims are about:

* `crates/leeward-core/src/error.rs` — the `LeewardError` enumeration;
* `crates/leeward-core/src/isolation/seccomp.rs` — `SeccompConfig`, its
  `Default` instance and the default-action selection of `build_filter`;
* `crates/leeward-core/src/shm.rs` — the slot allocator
  (`allocate_slot` / `free_slot`) and the mapped-view accessors
  (`write_request` / `read_response`);
* `crates/leeward-core/src/pipe.rs` — the framed pipe operations
  (`send_code` / `recv_code` / `send_result` / `recv_result`);
* `crates/leeward-core/src/worker.rs` — the `Worker` state machine
  (`spawn`, `execute`, `recycle`, `should_recycle`) and `execute_python`;
* `crates/leeward-daemon/src/pool.rs` — `WorkerPool::get_idle` and
  `WorkerPool::execute`;
* `crates/leeward-core/src/protocol.rs` — the `Request` / `Response` wire
  types and their MessagePack encoding.

Byte strings are `List Nat` (each element a byte value), machine counters are
`Nat` with explicit `% 2^32` where the Rust uses wrapping `u32` arithmetic,
and fallible Rust functions return `Except LeewardError`.  Interactions with
the operating system (the pid returned by `clone3`, the outcome of running
the interpreter, the kernel's reaction to a seccomp action) are inputs to the
embedded functions, universally quantified in the theorems.
-/

namespace Leeward

/-- The `LeewardError` enumeration from `error.rs`.  String-carrying
constructors keep the exact formatted messages the Rust code builds, since
several claims concern distinguishability of error values.  The `Io` and
`Nix` variants carry an abstract description of the underlying OS error. -/
inductive LeewardError where
  | namespaceErr (msg : String)
  | seccompErr (msg : String)
  | landlockErr (msg : String)
  | mountErr (msg : String)
  | execution (msg : String)
  | timeoutErr (secs : Nat)
  | memoryLimitExceeded (bytes : Nat)
  | ioErr (msg : String)
  | nixErr (msg : String)
  | configErr (msg : String)
  deriving DecidableEq, Repr

/-! ## Seccomp filtering (`isolation/seccomp.rs`) -/

/-- The `seccompiler::SeccompAction` values used by `build_filter`. -/
inductive SeccompAction where
  | allow
  | log
  | killThread
  | errno (code : Nat)
  | userNotify
  deriving DecidableEq, Repr

/-- `SeccompConfig` from `isolation/seccomp.rs`. -/
structure SeccompConfig where
  notify_mode : Bool
  allowed_syscalls : List Int
  log_denials : Bool
  deriving DecidableEq, Repr

/-- `default_python_syscalls()` from `isolation/seccomp.rs`: the allow-list,
with the x86-64 syscall numbers the `libc::SYS_*` constants denote. -/
def default_python_syscalls : List Int :=
  [0,   -- read
   1,   -- write
   3,   -- close
   5,   -- fstat
   8,   -- lseek
   9,   -- mmap
   10,  -- mprotect
   11,  -- munmap
   12,  -- brk
   13,  -- rt_sigaction
   14,  -- rt_sigprocmask
   16,  -- ioctl
   21,  -- access
   32,  -- dup
   33,  -- dup2
   39,  -- getpid
   102, -- getuid
   104, -- getgid
   107, -- geteuid
   108, -- getegid
   72,  -- fcntl
   257, -- openat
   262, -- newfstatat
   60,  -- exit
   231, -- exit_group
   202, -- futex
   318, -- getrandom
   228, -- clock_gettime
   230] -- clock_nanosleep

/-- `SeccompConfig::default()`: notify mode requested, the Python allow-list,
and `log_denials = true`. -/
def SeccompConfig.default : SeccompConfig :=
  { notify_mode := true
    allowed_syscalls := default_python_syscalls
    log_denials := true }

/-- The default action chosen in `SeccompConfig::build_filter`: `Log` when
`log_denials` is set, `KillThread` otherwise. -/
def SeccompConfig.defaultAction (c : SeccompConfig) : SeccompAction :=
  if c.log_denials then .log else .killThread

/-- The action the filter built by `build_filter` assigns to a syscall: each
allowed syscall gets an `Allow` rule; anything else falls to the default
action. -/
def SeccompConfig.filterAction (c : SeccompConfig) (syscall : Int) : SeccompAction :=
  if syscall ∈ c.allowed_syscalls then .allow else c.defaultAction

/-- What happens to the invoking thread when the filter fires an action. -/
inductive SyscallOutcome where
  | proceeds
  | deniedWithErrno (code : Nat)
  | threadKilled
  | suspendedForAdjudication
  deriving DecidableEq, Repr

/-- Modelled from the spec: the kernel semantics of each seccomp action
(the kernel is outside this repository).  Per the spec's own wording, under
*Log* "the syscall proceeds but is recorded"; *Kill-thread* kills the
offending thread; an errno action denies with that errno; *Notify* suspends
the thread for daemon adjudication. -/
def actionOutcome : SeccompAction → SyscallOutcome
  | .allow => .proceeds
  | .log => .proceeds
  | .killThread => .threadKilled
  | .errno code => .deniedWithErrno code
  | .userNotify => .suspendedForAdjudication

/-! ## Shared-memory arena (`shm.rs`) -/

/-- `REQUEST_SLOT_SIZE`: 64 KiB per request slot. -/
def REQUEST_SLOT_SIZE : Nat := 64 * 1024

/-- `RESPONSE_SLOT_SIZE`: 1 MiB per response slot. -/
def RESPONSE_SLOT_SIZE : Nat := 1024 * 1024

/-- `MAX_SLOTS`: at most 64 concurrent request slots. -/
def MAX_SLOTS : Nat := 64

/-- The modulus of the `AtomicU32` counter backing `active_requests`. -/
def U32_MOD : Nat := 4294967296

/-- `SharedMemoryRegion::allocate_slot`, as a transition on the value of the
`active_requests` counter.  `fetch_add(1)` returns the old value as the
candidate slot id; if it is `>= MAX_SLOTS` the increment is undone with
`fetch_sub(1)` and the caller gets the back-pressure error; otherwise the
slot id is returned.  Both atomic ops wrap at `2^32` as `u32` does.
Returns the new counter value and the call's result. -/
def allocate_slot (active : Nat) : Nat × Except LeewardError Nat :=
  let slot_id := active
  let bumped := (active + 1) % U32_MOD
  if slot_id ≥ MAX_SLOTS then
    ((bumped + (U32_MOD - 1)) % U32_MOD,
     .error (.execution "no available slots in shared memory"))
  else
    (bumped, .ok slot_id)

/-- `SharedMemoryRegion::free_slot`: a bare `fetch_sub(1)` on the counter
(wrapping at `2^32`). -/
def free_slot (active : Nat) : Nat :=
  (active + (U32_MOD - 1)) % U32_MOD

/-- One call against the slot allocator. -/
inductive ShmOp where
  | alloc
  | free
  deriving DecidableEq, Repr

/-- The counter value after one allocator call. -/
def shmStep (active : Nat) : ShmOp → Nat
  | .alloc => (allocate_slot active).1
  | .free => free_slot active

/-- The counter value after a sequence of allocator calls starting from
`active`. -/
def shmRun (active : Nat) : List ShmOp → Nat
  | [] => active
  | op :: ops => shmRun (shmStep active op) ops

/-- A call sequence is well formed when every `free_slot` is the release of a
previously allocated, still-active slot — i.e. it never runs with the counter
at zero.  (In the Rust API a `free_slot` consumes a `SlotPair`, which only a
successful `allocate_slot` produces.) -/
def shmValid (active : Nat) : List ShmOp → Bool
  | [] => true
  | .alloc :: ops => shmValid (shmStep active .alloc) ops
  | .free :: ops => 0 < active && shmValid (shmStep active .free) ops

/-! ## Mapped shared memory (`MappedSharedMemory` in `shm.rs`)

The mapped view is byte-addressed memory, embedded as a function from offset
to byte value. -/

/-- Byte-addressed memory. -/
def Mem : Type := Nat → Nat

/-- `std::ptr::copy_nonoverlapping(data, mem + off, data.length)`: overwrite
`data.length` bytes of `mem` starting at `off`. -/
def writeBytes (mem : Mem) (off : Nat) (data : List Nat) : Mem :=
  fun i => if off ≤ i ∧ i - off < data.length then data.getD (i - off) 0 else mem i

/-- The little-endian (x86-64 native) bytes of a `u32` store, as performed by
`*len_ptr = code.len() as u32`. -/
def u32le (n : Nat) : List Nat :=
  [n % 256, n / 256 % 256, n / 65536 % 256, n / 16777216 % 256]

/-- Read back a native-endian `u32` at `off`, as `*(src.cast::<u32>())` does. -/
def readU32le (mem : Mem) (off : Nat) : Nat :=
  mem off + mem (off + 1) * 256 + mem (off + 2) * 65536 + mem (off + 3) * 16777216

/-- `MappedSharedMemory::write_request`: reject payloads larger than
`REQUEST_SLOT_SIZE`; otherwise copy the payload to the slot's base offset and
then store the 4-byte length prefix — also at the slot's base offset.
Returns the updated memory. -/
def write_request (mem : Mem) (request_offset : Nat) (code : List Nat) :
    Except LeewardError Mem :=
  if code.length > REQUEST_SLOT_SIZE then
    .error (.execution ("code too large: " ++ Nat.repr code.length ++
      " bytes (max " ++ Nat.repr REQUEST_SLOT_SIZE ++ ")"))
  else
    .ok (writeBytes (writeBytes mem request_offset code) request_offset
          (u32le code.length))

/-- `MappedSharedMemory::read_response`: read the 4-byte length prefix at the
slot's base offset, reject lengths above `RESPONSE_SLOT_SIZE`, then copy
`len` payload bytes starting 4 bytes past the base. -/
def read_response (mem : Mem) (response_offset : Nat) :
    Except LeewardError (List Nat) :=
  let len := readU32le mem response_offset
  if len > RESPONSE_SLOT_SIZE then
    .error (.execution ("response too large: " ++ Nat.repr len ++ " bytes"))
  else
    .ok ((List.range len).map (fun i => mem (response_offset + 4 + i)))

/-- Reading a request slot by the documented layout (the layout
`read_response` implements and the spec documents for every slot): a 4-byte
length prefix at the slot's base, then `len` payload bytes, bounded by the
request slot size. -/
def readRequestSlot (mem : Mem) (request_offset : Nat) :
    Except LeewardError (List Nat) :=
  let len := readU32le mem request_offset
  if len > REQUEST_SLOT_SIZE then
    .error (.execution ("request too large: " ++ Nat.repr len ++ " bytes"))
  else
    .ok ((List.range len).map (fun i => mem (request_offset + 4 + i)))

/-! ## Framed worker pipes (`pipe.rs`)

A pipe direction is a byte stream; sending produces the bytes written,
receiving consumes a stream and yields the frame plus the remaining bytes. -/

/-- The 1 MiB bound `recv_code` enforces on code frames. -/
def MAX_CODE_FRAME : Nat := 1024 * 1024

/-- The 10 MiB bound `recv_result` enforces on result frames. -/
def MAX_RESULT_FRAME : Nat := 10 * 1024 * 1024

/-- The big-endian bytes of `(n as u32).to_be_bytes()`. -/
def u32be (n : Nat) : List Nat :=
  [n % U32_MOD / 16777216, n / 65536 % 256, n / 256 % 256, n % 256]

/-- `u32::from_be_bytes` on four bytes. -/
def u32beVal (b0 b1 b2 b3 : Nat) : Nat :=
  b0 * 16777216 + b1 * 65536 + b2 * 256 + b3

/-- `ParentPipe::send_code`: write the 4-byte big-endian length prefix, then
the code bytes.  No size check is performed on this side; the produced byte
stream is returned. -/
def send_code (code : List Nat) : Except LeewardError (List Nat) :=
  .ok (u32be code.length ++ code)

/-- `ChildPipe::send_result`: write the 4-byte big-endian length prefix, then
the result bytes.  No size check is performed on this side. -/
def send_result (result : List Nat) : Except LeewardError (List Nat) :=
  .ok (u32be result.length ++ result)

/-- `ChildPipe::recv_code`: read the 4-byte length prefix, reject declared
lengths above 1 MiB, then read that many payload bytes.  A stream too short
for a `read_exact` is an I/O error.  Returns the frame and the rest of the
stream. -/
def recv_code (stream : List Nat) : Except LeewardError (List Nat × List Nat) :=
  match stream with
  | b0 :: b1 :: b2 :: b3 :: rest =>
    let len := u32beVal b0 b1 b2 b3
    if len > MAX_CODE_FRAME then
      .error (.execution ("code too large: " ++ Nat.repr len ++ " bytes"))
    else if len ≤ rest.length then
      .ok (rest.take len, rest.drop len)
    else
      .error (.ioErr "failed to fill whole buffer")
  | _ => .error (.ioErr "failed to fill whole buffer")

/-- `ParentPipe::recv_result`: read the 4-byte length prefix, reject declared
lengths above 10 MiB, then read that many payload bytes. -/
def recv_result (stream : List Nat) : Except LeewardError (List Nat × List Nat) :=
  match stream with
  | b0 :: b1 :: b2 :: b3 :: rest =>
    let len := u32beVal b0 b1 b2 b3
    if len > MAX_RESULT_FRAME then
      .error (.execution ("result too large: " ++ Nat.repr len ++ " bytes"))
    else if len ≤ rest.length then
      .ok (rest.take len, rest.drop len)
    else
      .error (.ioErr "failed to fill whole buffer")
  | _ => .error (.ioErr "failed to fill whole buffer")

/-! ## Execution results (`result.rs`) -/

/-- `std::time::Duration` (seconds plus sub-second nanoseconds). -/
structure Dur where
  secs : Nat
  nanos : Nat
  deriving DecidableEq, Repr

/-- `ExecutionResult` from `result.rs`. -/
structure ExecutionResult where
  exit_code : Int
  stdout : List Nat
  stderr : List Nat
  duration : Dur
  memory_peak : Nat
  cpu_time_us : Nat
  timed_out : Bool
  oom_killed : Bool
  deriving DecidableEq, Repr

/-- The bytes of a string, used where the Rust calls `.into_bytes()`. -/
def strBytes (s : String) : List Nat :=
  s.data.map Char.toNat

/-- What running the interpreter did: `Command::output()` either fails to
spawn or finishes with an optional exit code (`None` when signal-killed) and
captured output.  This is the environment input to `execute_python`. -/
inductive InterpreterOutcome where
  | spawnFail (emsg : String)
  | finished (exitCode : Option Int) (outBytes errBytes : List Nat)
  deriving DecidableEq, Repr

/-- `execute_python` from `worker.rs`: on a spawn failure, exit code `-1` and
a diagnostic on stderr; otherwise the captured output with
`status.code().unwrap_or(-1)`.  In both cases `memory_peak`, `cpu_time_us`
are zero and `timed_out`, `oom_killed` are `false` (the source carries
`TODO` markers for all four).  `elapsed` is the measured wall-clock time. -/
def execute_python (o : InterpreterOutcome) (elapsed : Dur) : ExecutionResult :=
  match o with
  | .spawnFail m =>
    { exit_code := -1
      stdout := []
      stderr := strBytes ("Failed to execute Python: " ++ m)
      duration := elapsed
      memory_peak := 0
      cpu_time_us := 0
      timed_out := false
      oom_killed := false }
  | .finished code out err =>
    { exit_code := code.getD (-1)
      stdout := out
      stderr := err
      duration := elapsed
      memory_peak := 0
      cpu_time_us := 0
      timed_out := false
      oom_killed := false }

/-! ## The worker state machine (`worker.rs`) -/

/-- `WorkerState` from `worker.rs`. -/
inductive WorkerState where
  | idle
  | busy
  | recycling
  | dead
  deriving DecidableEq, Repr

/-- The `{:?}` rendering of a `WorkerState`, used in error messages. -/
def WorkerState.debugName : WorkerState → String
  | .idle => "Idle"
  | .busy => "Busy"
  | .recycling => "Recycling"
  | .dead => "Dead"

/-- `Worker` from `worker.rs`.  The `pipe: Option<ParentPipe>` field is
embedded as the boolean `pipeConnected` (whether it is `Some`); the pipe's
byte traffic is modelled separately by the `PipeOp` events of `execute`. -/
structure Worker where
  id : Nat
  state : WorkerState
  pid : Option Int
  execution_count : Nat
  pipeConnected : Bool
  deriving DecidableEq, Repr

/-- `Worker::new`: dead, no pid, zero executions, no pipe. -/
def Worker.new (id : Nat) : Worker :=
  { id := id
    state := .dead
    pid := none
    execution_count := 0
    pipeConnected := false }

/-- Environment input to `Worker::spawn`: creating the pipe pair or the
`clone3` call may fail; on success the kernel hands back the child's pid. -/
inductive SpawnOutcome where
  | pipeFail (e : LeewardError)
  | cloneFail (e : LeewardError)
  | ok (pid : Int)
  deriving DecidableEq, Repr

/-- `Worker::spawn`: create pipes, clone the child, and only on success store
the pid and parent pipe and move to `Idle`.  An early `?` return leaves every
field unchanged. -/
def Worker.spawn (w : Worker) : SpawnOutcome → Worker × Except LeewardError Unit
  | .pipeFail e => (w, .error e)
  | .cloneFail e => (w, .error e)
  | .ok pid =>
    ({ w with pid := some pid, pipeConnected := true, state := .idle }, .ok ())

/-- `Worker::recycle`: set `Recycling`, SIGKILL the old child (an effect on
the OS process only), drop the pipe, clear the pid, zero the execution
counter, then `spawn`. -/
def Worker.recycle (w : Worker) (o : SpawnOutcome) :
    Worker × Except LeewardError Unit :=
  let w1 := { w with state := WorkerState.recycling }
  let w2 := { w1 with pipeConnected := false, pid := none, execution_count := 0 }
  w2.spawn o

/-- `Worker::should_recycle`: `execution_count >= max_executions`. -/
def Worker.should_recycle (w : Worker) (max_executions : Nat) : Bool :=
  w.execution_count ≥ max_executions

/-- Pipe traffic performed by one `Worker::execute` call. -/
inductive PipeOp where
  | codeWrite
  | resultRead
  deriving DecidableEq, Repr

/-- Environment input to `Worker::execute`: the code-frame write may fail,
the result-frame read may fail, the received bytes may fail MessagePack
deserialization (with the library's error message), or a result arrives. -/
inductive ExecOutcome where
  | sendFail (e : LeewardError)
  | recvFail (e : LeewardError)
  | decodeFail (emsg : String)
  | ok (res : ExecutionResult)
  deriving DecidableEq, Repr

/-- `Worker::execute`: refuse unless `Idle`; refuse if the pipe is absent;
then set `Busy`, write the code frame, read the result frame, deserialize,
and only on full success bump the execution counter and return to `Idle`.
Any failure after entering `Busy` returns early, leaving the state `Busy`.
Returns the updated worker, the call's result, and the pipe operations
performed. -/
def Worker.execute (w : Worker) (o : ExecOutcome) :
    Worker × Except LeewardError ExecutionResult × List PipeOp :=
  if w.state ≠ WorkerState.idle then
    (w, .error (.execution ("worker " ++ Nat.repr w.id ++ " is not idle (state: "
        ++ w.state.debugName ++ ")")), [])
  else if !w.pipeConnected then
    (w, .error (.execution "worker pipe not initialized"), [])
  else
    let wb := { w with state := WorkerState.busy }
    match o with
    | .sendFail e => (wb, .error e, [.codeWrite])
    | .recvFail e => (wb, .error e, [.codeWrite, .resultRead])
    | .decodeFail m =>
      (wb, .error (.execution ("failed to deserialize result: " ++ m)),
       [.codeWrite, .resultRead])
    | .ok res =>
      ({ wb with execution_count := w.execution_count + 1,
                 state := WorkerState.idle },
       .ok res, [.codeWrite, .resultRead])

/-! ## The worker pool (`pool.rs`) -/

/-- The recycle ceiling the pool passes to `should_recycle` (the literal
`100` in `WorkerPool::execute`). -/
def RECYCLE_THRESHOLD : Nat := 100

/-- `WorkerPool::get_idle`: scan the workers in order and return the index of
the first one observed in state `Idle`. -/
def get_idle : List Worker → Option Nat
  | [] => none
  | w :: ws =>
    if w.state = WorkerState.idle then some 0
    else (get_idle ws).map (· + 1)

/-- `WorkerPool::execute`: take the first idle worker; if none, fail with the
back-pressure error.  Run the worker's `execute`; on success check
`should_recycle(100)` and recycle under the same guard.  Returns the updated
worker list and the call's result. -/
def poolExecute (o : ExecOutcome) (so : SpawnOutcome) :
    List Worker → List Worker × Except LeewardError ExecutionResult
  | [] => ([], .error (.execution "no idle workers available"))
  | w :: ws =>
    if w.state = WorkerState.idle then
      let step := w.execute o
      match step.2.1 with
      | .error e => (step.1 :: ws, .error e)
      | .ok res =>
        if step.1.should_recycle RECYCLE_THRESHOLD then
          let rec' := step.1.recycle so
          match rec'.2 with
          | .error e => (rec'.1 :: ws, .error e)
          | .ok _ => (rec'.1 :: ws, .ok res)
        else (step.1 :: ws, .ok res)
    else
      let tail := poolExecute o so ws
      (w :: tail.1, tail.2)

/-! ## Wire protocol (`protocol.rs`)

`Request` and `Response` are serde-derived, internally tagged
(`#[serde(tag = "type")]`) enumerations, encoded with `rmp_serde::to_vec` and
decoded with `rmp_serde::from_slice`.  The encoding is embedded at the level
of MessagePack value trees (`Mp`), mirroring what the derived serde
implementations produce under rmp-serde's default (compact) configuration:

* a newtype variant (`Execute`) serializes through serde's tagged-value
  serializer as a map carrying the `"type"` entry followed by the inner
  struct's fields under their names;
* unit variants (`Status`, `Ping`, `Pong`) and struct variants
  (`Response::Status`, `Response::Error`) serialize via `serialize_struct`,
  which rmp-serde's compact mode writes as an array whose first element is
  the tag string;
* a nested struct appearing as a field value (`Duration`,
  `ExecutionResult`) is written positionally as an array of its fields;
* `Option` is `nil` or the bare value; `Vec<u8>` is an array of integers;
  `Vec<(String, Vec<u8>)>` is an array of two-element arrays.

Decoding mirrors serde's tagged-content visitor: the tag is taken from the
`"type"` entry of a map or from the first element of an array, and the
variant content is read from the remaining entries (by name) or elements
(positionally). -/

/-- `ExecuteRequest` from `protocol.rs`. -/
structure ExecuteRequest where
  code : Option String
  shm_slot_id : Option Nat
  timeout : Option Dur
  memory_limit : Option Nat
  files : List (String × List Nat)
  deriving DecidableEq, Repr

/-- `ExecuteResponse` from `protocol.rs`. -/
structure ExecuteResponse where
  success : Bool
  result : Option ExecutionResult
  error : Option String
  deriving DecidableEq, Repr

/-- `Request` from `protocol.rs`. -/
inductive Request where
  | execute (req : ExecuteRequest)
  | status
  | ping
  deriving DecidableEq, Repr

/-- `Response` from `protocol.rs`. -/
inductive Response where
  | executeResp (resp : ExecuteResponse)
  | statusResp (total idle busy : Nat)
  | pong
  | errorResp (message : String)
  deriving DecidableEq, Repr

/-- MessagePack value trees.  Map keys are strings (the only key type the
derived encoders emit). -/
inductive Mp where
  | nil
  | bool (b : Bool)
  | int (n : Int)
  | str (s : String)
  | arr (xs : List Mp)
  | map (kvs : List (String × Mp))

/-- `Vec<u8>` serializes as an array of integers. -/
def mpOfBytes (bs : List Nat) : Mp :=
  .arr (bs.map (fun b : Nat => Mp.int (b : Int)))

/-- `Option<T>` serializes as `nil` or the bare value. -/
def mpOfOpt {α : Type} (f : α → Mp) : Option α → Mp
  | none => .nil
  | some x => f x

/-- `Duration` serializes positionally as `[secs, nanos]`. -/
def mpOfDur (d : Dur) : Mp :=
  .arr [.int d.secs, .int d.nanos]

/-- One `(String, Vec<u8>)` input-file entry. -/
def mpOfFile : String × List Nat → Mp
  | (p, c) => .arr [.str p, mpOfBytes c]

/-- The named field entries of an `ExecuteRequest`. -/
def encExecuteRequestFields (r : ExecuteRequest) : List (String × Mp) :=
  [("code", mpOfOpt Mp.str r.code),
   ("shm_slot_id", mpOfOpt (fun n : Nat => Mp.int (n : Int)) r.shm_slot_id),
   ("timeout", mpOfOpt mpOfDur r.timeout),
   ("memory_limit", mpOfOpt (fun n : Nat => Mp.int (n : Int)) r.memory_limit),
   ("files", .arr (r.files.map mpOfFile))]

/-- `protocol::encode` at type `Request`. -/
def encodeRequest : Request → Mp
  | .execute r => .map (("type", .str "Execute") :: encExecuteRequestFields r)
  | .status => .arr [.str "Status"]
  | .ping => .arr [.str "Ping"]

/-- An `ExecutionResult` appearing as a field value serializes positionally. -/
def mpOfResult (res : ExecutionResult) : Mp :=
  .arr [.int res.exit_code, mpOfBytes res.stdout, mpOfBytes res.stderr,
        mpOfDur res.duration, .int res.memory_peak, .int res.cpu_time_us,
        .bool res.timed_out, .bool res.oom_killed]

/-- `protocol::encode` at type `Response`. -/
def encodeResponse : Response → Mp
  | .executeResp r =>
    .map [("type", .str "Execute"),
          ("success", .bool r.success),
          ("result", mpOfOpt mpOfResult r.result),
          ("error", mpOfOpt Mp.str r.error)]
  | .statusResp total idle busy =>
    .arr [.str "Status", .int total, .int idle, .int busy]
  | .pong => .arr [.str "Pong"]
  | .errorResp m => .arr [.str "Error", .str m]

/-- Look a key up in the entries of an encoded map. -/
def lookupKey (kvs : List (String × Mp)) (k : String) : Option Mp :=
  match kvs with
  | [] => none
  | (k', v) :: rest => if k' = k then some v else lookupKey rest k

/-- Decode a MessagePack integer as a non-negative machine integer. -/
def decNat : Mp → Option Nat
  | .int n => if n < 0 then none else some n.toNat
  | _ => none

/-- Decode a MessagePack integer. -/
def decInt : Mp → Option Int
  | .int n => some n
  | _ => none

/-- Decode a boolean. -/
def decBool : Mp → Option Bool
  | .bool b => some b
  | _ => none

/-- Decode a string. -/
def decStr : Mp → Option String
  | .str s => some s
  | _ => none

/-- Decode an `Option<String>`. -/
def decOptStr : Mp → Option (Option String)
  | .nil => some none
  | .str s => some (some s)
  | _ => none

/-- Decode an `Option` of a non-negative integer. -/
def decOptNat : Mp → Option (Option Nat)
  | .nil => some none
  | v => (decNat v).map some

/-- Decode a `Duration` from its positional form. -/
def decDur : Mp → Option Dur
  | .arr [s, n] => do
    let secs ← decNat s
    let nanos ← decNat n
    some ⟨secs, nanos⟩
  | _ => none

/-- Decode an `Option<Duration>`. -/
def decOptDur : Mp → Option (Option Dur)
  | .nil => some none
  | v => (decDur v).map some

/-- Decode the elements of a sequence one by one, failing when any element
fails (as serde's sequence visitors do). -/
def mapDecode {α : Type} (f : Mp → Option α) : List Mp → Option (List α)
  | [] => some []
  | x :: xs => do
    let a ← f x
    let rest ← mapDecode f xs
    some (a :: rest)

/-- Decode a `Vec<u8>`. -/
def decBytes : Mp → Option (List Nat)
  | .arr xs => mapDecode decNat xs
  | _ => none

/-- Decode one input-file entry. -/
def decFile : Mp → Option (String × List Nat)
  | .arr [.str p, c] => (decBytes c).map (fun bs => (p, bs))
  | _ => none

/-- Decode the input-file list. -/
def decFiles : Mp → Option (List (String × List Nat))
  | .arr xs => mapDecode decFile xs
  | _ => none

/-- Decode an `ExecutionResult` from its positional form. -/
def decResult : Mp → Option ExecutionResult
  | .arr [ec, sout, serr, d, mem, cpu, tmo, oom] => do
    let ecV ← decInt ec
    let soutV ← decBytes sout
    let serrV ← decBytes serr
    let dV ← decDur d
    let memV ← decNat mem
    let cpuV ← decNat cpu
    let toV ← decBool tmo
    let oomV ← decBool oom
    some ⟨ecV, soutV, serrV, dV, memV, cpuV, toV, oomV⟩
  | _ => none

/-- Decode an `Option<ExecutionResult>`. -/
def decOptResult : Mp → Option (Option ExecutionResult)
  | .nil => some none
  | v => (decResult v).map some

/-- Decode an `ExecuteRequest` from named map entries. -/
def decExecuteRequestMap (kvs : List (String × Mp)) : Option ExecuteRequest := do
  let code ← decOptStr (← lookupKey kvs "code")
  let slot ← decOptNat (← lookupKey kvs "shm_slot_id")
  let tmo ← decOptDur (← lookupKey kvs "timeout")
  let mem ← decOptNat (← lookupKey kvs "memory_limit")
  let files ← decFiles (← lookupKey kvs "files")
  some ⟨code, slot, tmo, mem, files⟩

/-- Decode an `ExecuteRequest` from positional elements. -/
def decExecuteRequestSeq : List Mp → Option ExecuteRequest
  | [c, s, t, m, f] => do
    let code ← decOptStr c
    let slot ← decOptNat s
    let tmo ← decOptDur t
    let mem ← decOptNat m
    let files ← decFiles f
    some ⟨code, slot, tmo, mem, files⟩
  | _ => none

/-- `protocol::decode` at type `Request`. -/
def decodeRequest : Mp → Option Request
  | .map kvs =>
    match lookupKey kvs "type" with
    | some (.str "Execute") => (decExecuteRequestMap kvs).map Request.execute
    | some (.str "Status") => some .status
    | some (.str "Ping") => some .ping
    | _ => none
  | .arr (.str "Execute" :: rest) => (decExecuteRequestSeq rest).map Request.execute
  | .arr (.str "Status" :: _) => some .status
  | .arr (.str "Ping" :: _) => some .ping
  | _ => none

/-- Decode an `ExecuteResponse` from named map entries. -/
def decExecuteResponseMap (kvs : List (String × Mp)) : Option ExecuteResponse := do
  let success ← decBool (← lookupKey kvs "success")
  let result ← decOptResult (← lookupKey kvs "result")
  let emsg ← decOptStr (← lookupKey kvs "error")
  some ⟨success, result, emsg⟩

/-- `protocol::decode` at type `Response`. -/
def decodeResponse : Mp → Option Response
  | .map kvs =>
    match lookupKey kvs "type" with
    | some (.str "Execute") => (decExecuteResponseMap kvs).map Response.executeResp
    | some (.str "Pong") => some .pong
    | _ => none
  | .arr (.str "Status" :: rest) =>
    match rest with
    | [t, i, b] => do
      let tV ← decNat t
      let iV ← decNat i
      let bV ← decNat b
      some (.statusResp tV iV bV)
    | _ => none
  | .arr (.str "Pong" :: _) => some .pong
  | .arr (.str "Error" :: rest) =>
    match rest with
    | [.str m] => some (.errorResp m)
    | _ => none
  | _ => none

/-! ## Helper lemmas -/

/-- No message formed by `format!("worker {} is not idle …")` equals the
pool's back-pressure message: the first characters differ. -/
theorem worker_msg_ne_backpressure (s : String) :
    ("worker " ++ s) ≠ "no idle workers available" := by
  intro h
  have hd := congrArg String.data h
  rw [String.data_append] at hd
  simp at hd

/-- No deserialization-failure message equals the back-pressure message. -/
theorem decode_msg_ne_backpressure (s : String) :
    ("failed to deserialize result: " ++ s) ≠ "no idle workers available" := by
  intro h
  have hd := congrArg String.data h
  rw [String.data_append] at hd
  simp at hd

/-- No `recv_result` oversize message equals the back-pressure message. -/
theorem result_msg_ne_backpressure (s : String) :
    ("result too large: " ++ s) ≠ "no idle workers available" := by
  intro h
  have hd := congrArg String.data h
  rw [String.data_append] at hd
  simp at hd

/-- No `recv_code` / `write_request` oversize message equals the
back-pressure message. -/
theorem code_msg_ne_backpressure (s : String) :
    ("code too large: " ++ s) ≠ "no idle workers available" := by
  intro h
  have hd := congrArg String.data h
  rw [String.data_append] at hd
  simp at hd

/-- No `read_response` oversize message equals the back-pressure message. -/
theorem response_msg_ne_backpressure (s : String) :
    ("response too large: " ++ s) ≠ "no idle workers available" := by
  intro h
  have hd := congrArg String.data h
  rw [String.data_append] at hd
  simp at hd

/-- No request-slot oversize message equals the back-pressure message. -/
theorem request_msg_ne_backpressure (s : String) :
    ("request too large: " ++ s) ≠ "no idle workers available" := by
  intro h
  have hd := congrArg String.data h
  rw [String.data_append] at hd
  simp at hd

/-- The slot counter stays at or below `MAX_SLOTS` along any well-formed call
sequence that starts at or below `MAX_SLOTS`. -/
theorem shmRun_le (ops : List ShmOp) :
    ∀ active, active ≤ MAX_SLOTS → shmValid active ops → shmRun active ops ≤ MAX_SLOTS := by
  induction ops with
  | nil => intro active h _; simpa [shmRun] using h
  | cons op ops ih =>
    intro active h hv
    cases op with
    | alloc =>
      rw [shmRun]
      apply ih
      · simp only [shmStep, allocate_slot, MAX_SLOTS, U32_MOD] at *
        split <;> omega
      · simpa [shmValid] using hv
    | free =>
      rw [shmRun]
      simp only [shmValid, Bool.and_eq_true, decide_eq_true_eq] at hv
      apply ih
      · simp only [shmStep, free_slot, MAX_SLOTS, U32_MOD] at *
        omega
      · exact hv.2

/-- `get_idle` never selects a worker that is not idle, wherever it sits in
the pool. -/
theorem get_idle_skips_not_idle (w : Worker) (hw : w.state ≠ WorkerState.idle) :
    ∀ (pre post : List Worker), get_idle (pre ++ w :: post) ≠ some pre.length := by
  intro pre
  induction pre with
  | nil =>
    intro post
    simp only [List.nil_append, get_idle, List.length_nil]
    rw [if_neg hw]
    intro h
    obtain ⟨k, -, hk⟩ := Option.map_eq_some'.mp h
    omega
  | cons p pre ih =>
    intro post
    simp only [List.cons_append, get_idle, List.length_cons]
    split
    · intro h
      obtain h0 := Option.some.inj h
      omega
    · intro h
      obtain ⟨k, hk, hk1⟩ := Option.map_eq_some'.mp h
      have hkk : k = pre.length := by omega
      exact ih post (by simpa [hkk] using hk)

/-! ## Claim theorems -/

/-- Claim C1: under the default seccomp configuration
(`SeccompConfig::default()`), invoking a syscall outside the allow-list is
supposedly denied with an errno or kills the worker, with the *Log* action
reserved for debug configurations.  In fact the default configuration sets
`log_denials = true`, so `build_filter` installs `Log` as the default
action, under which (per the documented seccomp semantics) an unlisted
syscall — here 435, `clone3` — simply proceeds. -/
theorem seccomp_default_lets_unlisted_syscall_proceed :
    SeccompConfig.default.log_denials = true ∧
    (435 : Int) ∉ SeccompConfig.default.allowed_syscalls ∧
    SeccompConfig.default.filterAction 435 = SeccompAction.log ∧
    actionOutcome (SeccompConfig.default.filterAction 435) = SyscallOutcome.proceeds := by
  refine ⟨rfl, by decide, by decide, by decide⟩

/-- Claim C2: the daemon side is supposed to enforce the per-execute
wall-clock ceiling — SIGKILL the worker, mark it *Dead*, and synthesize a
result with `timed_out = true`.  The code implements none of this:
`execute_python` returns `timed_out = false` for every interpreter outcome,
and `Worker::execute` never moves a worker to *Dead* (its result state is
*Dead* only when the worker already was). -/
theorem no_timeout_enforcement_exists :
    (∀ (o : InterpreterOutcome) (elapsed : Dur),
        (execute_python o elapsed).timed_out = false) ∧
    (∀ (w : Worker) (o : ExecOutcome),
        ((w.execute o).1.state = WorkerState.dead ↔ w.state = WorkerState.dead)) := by
  constructor
  · intro o elapsed
    cases o <;> rfl
  · intro w o
    unfold Worker.execute
    split
    · exact Iff.rfl
    · split
      · exact Iff.rfl
      · rename_i hidle _
        cases o <;> simp_all


/-- Claim C3: writing a payload into a request slot is supposed to leave a
4-byte length prefix followed by the payload bytes unchanged, so that reading
the slot back by the documented layout recovers the payload.  In fact
`write_request` copies the payload to the slot's base offset and then stores
the length prefix at that same base offset, clobbering the payload's first
four bytes; reading back the 5-byte payload `[1,2,3,4,5]` from a zeroed slot
yields `[5,0,0,0,0]`. -/
theorem write_request_clobbers_payload :
    (write_request (fun _ => 0) 0 [1, 2, 3, 4, 5]).bind (fun m => readRequestSlot m 0) =
      .ok [5, 0, 0, 0, 0] ∧
    (write_request (fun _ => 0) 0 [1, 2, 3, 4, 5]).map (fun m => readU32le m 0) =
      .ok 5 ∧
    ([5, 0, 0, 0, 0] : List Nat) ≠ [1, 2, 3, 4, 5] :=
  ⟨rfl, rfl, by decide⟩

/-- Claim C4 (counterexample): the sending side does not enforce the frame
limits.  `send_code` happily frames a payload one byte over the 1 MiB code
ceiling, and `send_result` one byte over the 10 MiB result ceiling. -/
theorem send_accepts_oversized_frames :
    MAX_CODE_FRAME + 1 > MAX_CODE_FRAME ∧
    send_code (List.replicate (MAX_CODE_FRAME + 1) 37) =
      .ok (u32be (MAX_CODE_FRAME + 1) ++ List.replicate (MAX_CODE_FRAME + 1) 37) ∧
    send_result (List.replicate (MAX_RESULT_FRAME + 1) 37) =
      .ok (u32be (MAX_RESULT_FRAME + 1) ++ List.replicate (MAX_RESULT_FRAME + 1) 37) := by
  refine ⟨by omega, ?_, ?_⟩ <;> simp [send_code, send_result]

/-- Claim C4 (amended): only the receiving sides enforce the maximum frame
sizes — `recv_code` rejects declared lengths above 1 MiB and `recv_result`
above 10 MiB with an error before reading the payload — while the sending
sides frame and transmit payloads of any size without error. -/
theorem frame_limits_enforced_on_receive_only :
    (∀ b0 b1 b2 b3 (rest : List Nat), u32beVal b0 b1 b2 b3 > MAX_CODE_FRAME →
      recv_code (b0 :: b1 :: b2 :: b3 :: rest) =
        .error (.execution ("code too large: " ++
          Nat.repr (u32beVal b0 b1 b2 b3) ++ " bytes"))) ∧
    (∀ b0 b1 b2 b3 (rest : List Nat), u32beVal b0 b1 b2 b3 > MAX_RESULT_FRAME →
      recv_result (b0 :: b1 :: b2 :: b3 :: rest) =
        .error (.execution ("result too large: " ++
          Nat.repr (u32beVal b0 b1 b2 b3) ++ " bytes"))) ∧
    (∀ code : List Nat, send_code code = .ok (u32be code.length ++ code)) ∧
    (∀ result : List Nat, send_result result = .ok (u32be result.length ++ result)) := by
  refine ⟨?_, ?_, fun _ => rfl, fun _ => rfl⟩ <;>
  · intro b0 b1 b2 b3 rest h
    simp [recv_code, recv_result, h]

/-- Witness for the amended C4 theorem at concrete frames. -/
theorem frame_limits_enforced_on_receive_only_witness :
    recv_code (16 :: 0 :: 0 :: 1 :: []) =
      .error (.execution ("code too large: " ++
        Nat.repr (u32beVal 16 0 0 1) ++ " bytes")) ∧
    recv_result (16 :: 0 :: 0 :: 1 :: []) =
      .error (.execution ("result too large: " ++
        Nat.repr (u32beVal 16 0 0 1) ++ " bytes")) :=
  ⟨frame_limits_enforced_on_receive_only.1 16 0 0 1 [] (by decide),
   frame_limits_enforced_on_receive_only.2.1 16 0 0 1 [] (by decide)⟩

/-- Claim C5: along any well-formed sequence of `allocate_slot` and
`free_slot` calls the active-slot counter never exceeds `MAX_SLOTS = 64`;
an allocation attempted with all 64 slots active fails with the
back-pressure error and leaves the counter unchanged (the increment is
undone); and every successful allocation returns a slot index below 64 while
raising the counter by one. -/
theorem slot_allocator_bounded :
    (∀ ops : List ShmOp, shmValid 0 ops = true → shmRun 0 ops ≤ MAX_SLOTS) ∧
    (∀ active : Nat, MAX_SLOTS ≤ active → active + 1 < U32_MOD →
      allocate_slot active =
        (active, .error (.execution "no available slots in shared memory"))) ∧
    (∀ (active slot_id : Nat), (allocate_slot active).2 = .ok slot_id →
      slot_id < MAX_SLOTS ∧ (allocate_slot active).1 = active + 1) := by
  refine ⟨fun ops hv => shmRun_le ops 0 (by omega) hv, ?_, ?_⟩
  · intro active h1 h2
    simp only [allocate_slot, MAX_SLOTS, U32_MOD] at *
    rw [if_pos (by omega)]
    have harith : ((active + 1) % 4294967296 + 4294967295) % 4294967296 = active := by
      omega
    rw [harith]
  · intro active slot_id h
    simp only [allocate_slot, MAX_SLOTS, U32_MOD] at *
    by_cases hb : active ≥ 64
    · rw [if_pos hb] at h
      exact absurd h (by simp)
    · rw [if_neg hb] at h ⊢
      obtain rfl := Except.ok.inj h
      exact ⟨by omega, by simp; omega⟩

/-- Witness for the C5 theorem: a concrete call sequence, a full-arena
allocation failure, and a successful allocation. -/
theorem slot_allocator_bounded_witness :
    shmRun 0 [ShmOp.alloc, ShmOp.alloc, ShmOp.free, ShmOp.alloc] ≤ MAX_SLOTS ∧
    allocate_slot 64 =
      (64, .error (.execution "no available slots in shared memory")) ∧
    (2 < MAX_SLOTS ∧ (allocate_slot 2).1 = 2 + 1) :=
  ⟨slot_allocator_bounded.1 [ShmOp.alloc, ShmOp.alloc, ShmOp.free, ShmOp.alloc] (by decide),
   slot_allocator_bounded.2.1 64 (by decide) (by decide),
   slot_allocator_bounded.2.2 2 2 (by rfl)⟩

/-- Claim C6: when `recycle()` succeeds (the kernel handing `clone3` a fresh
pid `p`, necessarily distinct from the killed-but-unreaped previous child's
pid), the worker ends `Idle`, its execution counter is zero, and its pid is
present and differs from the pid before the recycle. -/
theorem recycle_success_resets_worker (w : Worker) (p : Int)
    (hfresh : w.pid ≠ some p) :
    (w.recycle (SpawnOutcome.ok p)).2 = .ok () ∧
    (w.recycle (SpawnOutcome.ok p)).1.state = WorkerState.idle ∧
    (w.recycle (SpawnOutcome.ok p)).1.execution_count = 0 ∧
    (w.recycle (SpawnOutcome.ok p)).1.pid = some p ∧
    (w.recycle (SpawnOutcome.ok p)).1.pid ≠ w.pid := by
  refine ⟨rfl, rfl, rfl, rfl, ?_⟩
  show some p ≠ w.pid
  exact fun h => hfresh h.symm

/-- Witness for the C6 theorem at a concrete worker and fresh pid. -/
theorem recycle_success_resets_worker_witness :
    (Worker.recycle
        { id := 3, state := WorkerState.busy, pid := some 7,
          execution_count := 42, pipeConnected := true }
        (SpawnOutcome.ok 8)).1.execution_count = 0 ∧
    (Worker.recycle
        { id := 3, state := WorkerState.busy, pid := some 7,
          execution_count := 42, pipeConnected := true }
        (SpawnOutcome.ok 8)).1.pid ≠ some 7 := by
  have h := recycle_success_resets_worker
    { id := 3, state := WorkerState.busy, pid := some 7,
      execution_count := 42, pipeConnected := true } 8 (by decide)
  exact ⟨h.2.2.1, by rw [h.2.2.2.1]; decide⟩

/-- Claim C7 (counterexample): a worker whose execution count stands at 99 is
recycled *within* the very pool `execute` call that brings its count to the
threshold 100 — the returned pool holds the worker freshly respawned (count
0, new pid 42), not a worker with count 100 awaiting the next attempt. -/
theorem pool_recycles_in_same_call :
    poolExecute (ExecOutcome.ok ⟨0, [], [], ⟨0, 0⟩, 0, 0, false, false⟩)
        (SpawnOutcome.ok 42)
        [{ id := 0, state := WorkerState.idle, pid := some 41,
           execution_count := 99, pipeConnected := true }] =
      ([{ id := 0, state := WorkerState.idle, pid := some 42,
          execution_count := 0, pipeConnected := true }],
       .ok ⟨0, [], [], ⟨0, 0⟩, 0, 0, false, false⟩) := by
  rfl

/-- Claim C7 (amended): the pool checks `should_recycle(100)` right after a
successful execute, inside the same pool `execute` call: a worker whose count
reaches the threshold with this execution is recycled before the call
returns, and a worker still below the threshold after this execution is left
as is with its count incremented. -/
theorem pool_recycle_policy (w : Worker) (res : ExecutionResult) (p : Int)
    (ws : List Worker) (hidle : w.state = WorkerState.idle)
    (hpipe : w.pipeConnected = true) :
    (w.execution_count + 1 ≥ RECYCLE_THRESHOLD →
      poolExecute (.ok res) (.ok p) (w :: ws) =
        ({ w with state := WorkerState.idle, pid := some p,
                  execution_count := 0, pipeConnected := true } :: ws, .ok res)) ∧
    (w.execution_count + 1 < RECYCLE_THRESHOLD →
      poolExecute (.ok res) (.ok p) (w :: ws) =
        ({ w with state := WorkerState.idle,
                  execution_count := w.execution_count + 1 } :: ws, .ok res)) := by
  constructor
  · intro h
    have h' : 99 ≤ w.execution_count := by
      simp only [RECYCLE_THRESHOLD] at h; omega
    simp [poolExecute, Worker.execute, hidle, hpipe, Worker.should_recycle,
      RECYCLE_THRESHOLD, Worker.recycle, Worker.spawn, h']
  · intro h
    have h' : ¬ 99 ≤ w.execution_count := by
      simp only [RECYCLE_THRESHOLD] at h; omega
    simp [poolExecute, Worker.execute, hidle, hpipe, Worker.should_recycle,
      RECYCLE_THRESHOLD, h']

/-- Witness for the amended C7 theorem: both branches at concrete workers. -/
theorem pool_recycle_policy_witness :
    poolExecute (.ok ⟨0, [], [], ⟨0, 0⟩, 0, 0, false, false⟩) (.ok 42)
      [{ id := 0, state := WorkerState.idle, pid := some 41,
         execution_count := 99, pipeConnected := true }] =
      ([{ id := 0, state := WorkerState.idle, pid := some 42,
          execution_count := 0, pipeConnected := true }],
       .ok ⟨0, [], [], ⟨0, 0⟩, 0, 0, false, false⟩) ∧
    poolExecute (.ok ⟨0, [], [], ⟨0, 0⟩, 0, 0, false, false⟩) (.ok 42)
      [{ id := 0, state := WorkerState.idle, pid := some 41,
         execution_count := 5, pipeConnected := true }] =
      ([{ id := 0, state := WorkerState.idle, pid := some 41,
          execution_count := 6, pipeConnected := true }],
       .ok ⟨0, [], [], ⟨0, 0⟩, 0, 0, false, false⟩) :=
  ⟨(pool_recycle_policy
      { id := 0, state := WorkerState.idle, pid := some 41,
        execution_count := 99, pipeConnected := true }
      ⟨0, [], [], ⟨0, 0⟩, 0, 0, false, false⟩ 42 [] rfl rfl).1 (by decide),
   (pool_recycle_policy
      { id := 0, state := WorkerState.idle, pid := some 41,
        execution_count := 5, pipeConnected := true }
      ⟨0, [], [], ⟨0, 0⟩, 0, 0, false, false⟩ 42 [] rfl rfl).2 (by decide)⟩

/-- `WorkerPool::execute` on a pool with no idle worker reports the
back-pressure error and leaves every worker untouched. -/
theorem poolExecute_no_idle (o : ExecOutcome) (so : SpawnOutcome) :
    ∀ ws : List Worker, (∀ w ∈ ws, w.state ≠ WorkerState.idle) →
      poolExecute o so ws = (ws, .error (.execution "no idle workers available")) := by
  intro ws
  induction ws with
  | nil => intro _; rfl
  | cons w ws ih =>
    intro hnone
    have hw := hnone w (List.mem_cons_self w ws)
    have hrest : ∀ x ∈ ws, x.state ≠ WorkerState.idle :=
      fun x hx => hnone x (List.mem_cons_of_mem w hx)
    simp [poolExecute, hw, ih hrest]

/-- Claim C8: a pool `execute` issued while no worker is `Idle` returns the
back-pressure error `Execution("no idle workers available")`, and that value
is distinct from every other error the pool or a worker produces: every
non-`Execution` error constructor with any payload — covering pipe I/O and
nix errors, timeouts, and the `Namespace("clone3 failed: …")` error a
recycle-triggered respawn propagates — and every `Execution` message the
sources build: the not-idle refusal, the missing-pipe error, the
deserialization failure, the `recv_result` / `recv_code` / `write_request` /
`read_response` / request-slot oversize messages (in their exact formatted
shapes), and the shared-memory slot exhaustion message. -/
theorem backpressure_distinct (ws : List Worker) (o : ExecOutcome)
    (so : SpawnOutcome) (hnone : ∀ w ∈ ws, w.state ≠ WorkerState.idle) :
    poolExecute o so ws = (ws, .error (.execution "no idle workers available")) ∧
    (∀ s : String, LeewardError.execution "no idle workers available" ≠ .ioErr s) ∧
    (∀ s : String, LeewardError.execution "no idle workers available" ≠ .nixErr s) ∧
    (∀ t : Nat, LeewardError.execution "no idle workers available" ≠ .timeoutErr t) ∧
    (∀ s : String, LeewardError.execution "no idle workers available" ≠
      .execution ("worker " ++ s)) ∧
    (∀ s : String, LeewardError.execution "no idle workers available" ≠
      .execution ("failed to deserialize result: " ++ s)) ∧
    LeewardError.execution "no idle workers available" ≠
      .execution "worker pipe not initialized" ∧
    (∀ s : String, LeewardError.execution "no idle workers available" ≠
      .namespaceErr s) ∧
    (∀ s : String, LeewardError.execution "no idle workers available" ≠
      .seccompErr s) ∧
    (∀ s : String, LeewardError.execution "no idle workers available" ≠
      .landlockErr s) ∧
    (∀ s : String, LeewardError.execution "no idle workers available" ≠
      .mountErr s) ∧
    (∀ n : Nat, LeewardError.execution "no idle workers available" ≠
      .memoryLimitExceeded n) ∧
    (∀ s : String, LeewardError.execution "no idle workers available" ≠
      .configErr s) ∧
    (∀ s : String, LeewardError.execution "no idle workers available" ≠
      .execution ("result too large: " ++ s)) ∧
    (∀ s : String, LeewardError.execution "no idle workers available" ≠
      .execution ("code too large: " ++ s)) ∧
    (∀ s : String, LeewardError.execution "no idle workers available" ≠
      .execution ("response too large: " ++ s)) ∧
    (∀ s : String, LeewardError.execution "no idle workers available" ≠
      .execution ("request too large: " ++ s)) ∧
    (∀ n : Nat, LeewardError.execution "no idle workers available" ≠
      .execution ("result too large: " ++ Nat.repr n ++ " bytes")) ∧
    (∀ n : Nat, LeewardError.execution "no idle workers available" ≠
      .execution ("code too large: " ++ Nat.repr n ++ " bytes")) ∧
    LeewardError.execution "no idle workers available" ≠
      .execution "no available slots in shared memory" := by
  refine ⟨poolExecute_no_idle o so ws hnone, fun s => by simp, fun s => by simp,
    fun t => by simp, ?_, ?_, by decide, fun s => by simp, fun s => by simp,
    fun s => by simp, fun s => by simp, fun n => by simp, fun s => by simp,
    ?_, ?_, ?_, ?_, ?_, ?_, by decide⟩
  · intro s h
    injection h with h'
    exact worker_msg_ne_backpressure s h'.symm
  · intro s h
    injection h with h'
    exact decode_msg_ne_backpressure s h'.symm
  · intro s h
    injection h with h'
    exact result_msg_ne_backpressure s h'.symm
  · intro s h
    injection h with h'
    exact code_msg_ne_backpressure s h'.symm
  · intro s h
    injection h with h'
    exact response_msg_ne_backpressure s h'.symm
  · intro s h
    injection h with h'
    exact request_msg_ne_backpressure s h'.symm
  · intro n h
    injection h with h'
    have hd := congrArg String.data h'
    rw [String.data_append, String.data_append] at hd
    simp at hd
  · intro n h
    injection h with h'
    have hd := congrArg String.data h'
    rw [String.data_append, String.data_append] at hd
    simp at hd

/-- Witness for the C8 theorem on a concrete all-dead pool. -/
theorem backpressure_distinct_witness :
    poolExecute (ExecOutcome.ok ⟨0, [], [], ⟨0, 0⟩, 0, 0, false, false⟩)
        (SpawnOutcome.ok 1) [Worker.new 0] =
      ([Worker.new 0], .error (.execution "no idle workers available")) :=
  (backpressure_distinct [Worker.new 0]
    (ExecOutcome.ok ⟨0, [], [], ⟨0, 0⟩, 0, 0, false, false⟩)
    (SpawnOutcome.ok 1) (by decide)).1

/-- Claim C10: when `Worker::execute` on an idle worker fails after entering
`Busy` — the code-frame write fails, the result-frame read fails, or the
result bytes fail to deserialize — the call returns that error and leaves the
worker `Busy` with its counter unchanged; every later `execute` on the
wedged worker returns the not-idle error without touching the pipe, and
`get_idle` never selects it again. -/
theorem execute_failure_wedges_worker (w : Worker)
    (hidle : w.state = WorkerState.idle) (hpipe : w.pipeConnected = true) :
    (∀ e, w.execute (.sendFail e) =
      ({ w with state := WorkerState.busy }, .error e, [PipeOp.codeWrite])) ∧
    (∀ e, w.execute (.recvFail e) =
      ({ w with state := WorkerState.busy }, .error e,
       [PipeOp.codeWrite, PipeOp.resultRead])) ∧
    (∀ m, w.execute (.decodeFail m) =
      ({ w with state := WorkerState.busy },
       .error (.execution ("failed to deserialize result: " ++ m)),
       [PipeOp.codeWrite, PipeOp.resultRead])) ∧
    ({ w with state := WorkerState.busy } : Worker).execution_count =
      w.execution_count ∧
    (∀ o2, ({ w with state := WorkerState.busy } : Worker).execute o2 =
      ({ w with state := WorkerState.busy },
       .error (.execution ("worker " ++ Nat.repr w.id ++ " is not idle (state: "
         ++ WorkerState.busy.debugName ++ ")")), [])) ∧
    (∀ pre post : List Worker,
      get_idle (pre ++ ({ w with state := WorkerState.busy } : Worker) :: post) ≠
        some pre.length) := by
  refine ⟨?_, ?_, ?_, rfl, ?_, ?_⟩
  · intro e; simp [Worker.execute, hidle, hpipe]
  · intro e; simp [Worker.execute, hidle, hpipe]
  · intro m; simp [Worker.execute, hidle, hpipe]
  · intro o2; simp [Worker.execute]
  · exact fun pre post => get_idle_skips_not_idle _ (by simp) pre post

/-- Witness for the C10 theorem at a concrete worker and decode failure. -/
theorem execute_failure_wedges_worker_witness :
    Worker.execute
        { id := 5, state := WorkerState.idle, pid := some 9,
          execution_count := 3, pipeConnected := true }
        (.decodeFail "oops") =
      ({ id := 5, state := WorkerState.busy, pid := some 9,
         execution_count := 3, pipeConnected := true },
       .error (.execution ("failed to deserialize result: " ++ "oops")),
       [PipeOp.codeWrite, PipeOp.resultRead]) ∧
    get_idle ([] ++ { id := 5, state := WorkerState.busy, pid := some 9,
                      execution_count := 3, pipeConnected := true } :: []) ≠
      some 0 := by
  have h := execute_failure_wedges_worker
    { id := 5, state := WorkerState.idle, pid := some 9,
      execution_count := 3, pipeConnected := true } rfl rfl
  exact ⟨h.2.2.1 "oops", h.2.2.2.2.2 [] []⟩

/-- A `u8` written as a MessagePack integer decodes back to itself. -/
theorem decNat_enc (n : Nat) : decNat (.int n) = some n := by
  show (if ((n : Int)) < 0 then none else some ((n : Int)).toNat) = some n
  rw [if_neg (by omega)]
  try simp

/-- `Option<String>` fields round-trip. -/
theorem decOptStr_enc (x : Option String) :
    decOptStr (mpOfOpt Mp.str x) = some x := by
  cases x <;> rfl

/-- `Option` integer fields round-trip. -/
theorem decOptNat_enc (x : Option Nat) :
    decOptNat (mpOfOpt (fun n : Nat => Mp.int (n : Int)) x) = some x := by
  cases x with
  | none => rfl
  | some n => simp [mpOfOpt, decOptNat, decNat_enc]

/-- `Duration` values round-trip. -/
theorem decDur_enc (d : Dur) :
    decDur (.arr [.int (d.secs : Int), .int (d.nanos : Int)]) = some d := by
  simp [decDur, decNat_enc]

/-- `Option<Duration>` fields round-trip. -/
theorem decOptDur_enc (x : Option Dur) :
    decOptDur (mpOfOpt mpOfDur x) = some x := by
  cases x with
  | none => rfl
  | some d => simp [mpOfOpt, decOptDur, decDur_enc, mpOfDur]

/-- `Vec<u8>` values round-trip. -/
theorem decBytes_enc (bs : List Nat) : decBytes (mpOfBytes bs) = some bs := by
  simp only [decBytes, mpOfBytes]
  induction bs with
  | nil => rfl
  | cons b bs ih => simp [mapDecode, decNat_enc, ih]

/-- Input-file entries round-trip. -/
theorem decFile_enc (f : String × List Nat) : decFile (mpOfFile f) = some f := by
  obtain ⟨p, c⟩ := f
  simp [mpOfFile, decFile, decBytes_enc]

/-- The input-file list rounds-trips. -/
theorem decFiles_enc (files : List (String × List Nat)) :
    decFiles (.arr (files.map mpOfFile)) = some files := by
  simp only [decFiles]
  induction files with
  | nil => rfl
  | cons f fs ih => simp [mapDecode, decFile_enc, ih]

/-- `ExecutionResult` values round-trip. -/
theorem decResult_enc (res : ExecutionResult) :
    decResult (mpOfResult res) = some res := by
  simp [mpOfResult, decResult, decNat_enc, decBytes_enc, decDur_enc, mpOfDur,
    decInt, decBool]

/-- `Option<ExecutionResult>` fields round-trip. -/
theorem decOptResult_enc (x : Option ExecutionResult) :
    decOptResult (mpOfOpt mpOfResult x) = some x := by
  cases x with
  | none => rfl
  | some res =>
    have h := decResult_enc res
    cases hm : mpOfResult res with
    | arr xs => rw [hm] at h; simp [mpOfOpt, hm, decOptResult, h]
    | nil => simp [mpOfResult] at hm
    | bool b => simp [mpOfResult] at hm
    | int n => simp [mpOfResult] at hm
    | str s => simp [mpOfResult] at hm
    | map kvs => simp [mpOfResult] at hm

/-- Requests round-trip through the protocol codec. -/
theorem decodeRequest_encodeRequest (r : Request) :
    decodeRequest (encodeRequest r) = some r := by
  cases r with
  | execute req =>
    simp [encodeRequest, decodeRequest, encExecuteRequestFields, lookupKey,
      decExecuteRequestMap, decOptStr_enc, decOptNat_enc, decOptDur_enc,
      decFiles_enc]
  | status => rfl
  | ping => rfl

/-- Responses round-trip through the protocol codec. -/
theorem decodeResponse_encodeResponse (r : Response) :
    decodeResponse (encodeResponse r) = some r := by
  cases r with
  | executeResp resp =>
    simp [encodeResponse, decodeResponse, lookupKey, decExecuteResponseMap,
      decBool, decOptResult_enc, decOptStr_enc]
  | statusResp total idle busy =>
    simp [encodeResponse, decodeResponse, decNat_enc]
  | pong => rfl
  | errorResp m => rfl

/-- Claim C9: encoding any `Request` or `Response` with the protocol encoder
and decoding the bytes back yields an equal value. -/
theorem protocol_roundtrip :
    (∀ r : Request, decodeRequest (encodeRequest r) = some r) ∧
    (∀ r : Response, decodeResponse (encodeResponse r) = some r) :=
  ⟨decodeRequest_encodeRequest, decodeResponse_encodeResponse⟩
